import Mathlib

/-!
Formal model of the drive-table UI component, the management-record DELETE
route handler, and the auth guard of the `website-humanika` repository.

Each definition is a shallow embedding of the corresponding TypeScript
source. JavaScript strings become `String`, nullable values become
`Option`, thrown exceptions become `Except`, and React `setState` calls
become explicit state-transition actions. Network calls are recorded in
traces so that theorems can count and order them.
-/

/-! ## JavaScript string helpers -/

/-- Model of JavaScript `String.prototype.includes(pat)` restricted to the
substring occurrence test: scans every suffix of `s` for `pat` as a prefix. -/
def containsSub : List Char → List Char → Bool
  | [], pat => pat.isEmpty
  | l@(_ :: rest), pat => pat.isPrefixOf l || containsSub rest pat

/-- JS `s.includes(pat)`. -/
def jsIncludes (s pat : String) : Bool :=
  containsSub s.data pat.data

/-- JS `m || fallback` on a nullable string: the fallback is used when the
string is absent or empty (JS falsiness). -/
def jsOr : Option String → String → String
  | some s, fallback => if s = "" then fallback else s
  | none, fallback => fallback

/-- JS ternary `err instanceof Error ? err.message : fallback`: a thrown
value is modelled as `Option String` (`some m` when it is an `Error` with
message `m`, `none` otherwise). -/
def errMsg : Option String → String → String
  | some m, _ => m
  | none, fallback => fallback

/-- JS `String.prototype.trim()`: strip leading and trailing whitespace. -/
def jsTrim (s : String) : String :=
  { data := ((s.data.dropWhile Char.isWhitespace).reverse.dropWhile Char.isWhitespace).reverse }

/-! ## Data model of the drive table (`src/components/admin/drive/Table.tsx`) -/

/-- `drive_v3.Schema$File`: every field the component reads is optional. -/
structure DriveFile where
  id : Option String
  name : Option String
  mimeType : Option String
deriving DecidableEq

/-- The `filter` state: `"all" | "files" | "folders"`. -/
inductive DriveFilter where
  | all
  | files
  | folders
deriving DecidableEq

/-- `file.mimeType?.includes("folder")` coerced to a boolean: optional
chaining on a missing `mimeType` yields `undefined`, which is falsy. -/
def isFolderMime : Option String → Bool
  | some s => jsIncludes s "folder"
  | none => false

/-- The `filteredFiles` computation of the component:
`files.filter(file => ...)` dispatching on the current filter. -/
def filteredFiles (files : List DriveFile) (filter : DriveFilter) : List DriveFile :=
  files.filter fun file =>
    match filter with
    | DriveFilter.all => true
    | DriveFilter.folders => isFolderMime file.mimeType
    | DriveFilter.files => !isFolderMime file.mimeType

/-! ## Component state and state-update actions

React `useState` setters are modelled as atomic state-transition actions;
an async function body becomes the list of actions it performs, and
concurrent executions become interleavings (`Merge`) of those lists. -/

/-- Keys of the `LoadingState` record. -/
inductive LKey where
  | files
  | folders
  | operations
deriving DecidableEq

/-- The component state touched by the fetch and mutation handlers. -/
structure TableState where
  files : List DriveFile
  folders : List DriveFile
  loadingFiles : Bool
  loadingFolders : Bool
  loadingOperations : Bool
  error : Option String
deriving DecidableEq

/-- One `setState` call. -/
inductive Act where
  | setFiles (v : List DriveFile)
  | setFolders (v : List DriveFile)
  | setLoading (key : LKey) (value : Bool)
  | setError (e : Option String)
deriving DecidableEq

/-- Effect of a single `setState` call on the component state. -/
def applyAct (a : Act) (s : TableState) : TableState :=
  match a with
  | Act.setFiles v => { s with files := v }
  | Act.setFolders v => { s with folders := v }
  | Act.setLoading LKey.files b => { s with loadingFiles := b }
  | Act.setLoading LKey.folders b => { s with loadingFolders := b }
  | Act.setLoading LKey.operations b => { s with loadingOperations := b }
  | Act.setError e => { s with error := e }

/-- Run a sequence of `setState` calls in order. -/
def runActs (acts : List Act) (s : TableState) : TableState :=
  acts.foldl (fun st a => applyAct a st) s

/-- The `setState` calls performed by one execution of `fetchFiles`,
indexed by the outcome of `await fetchDriveFiles(accessToken)`. -/
def fetchFilesScript (outcome : Except (Option String) (List DriveFile)) : List Act :=
  [Act.setLoading LKey.files true, Act.setError none] ++
    (match outcome with
     | Except.ok v => [Act.setFiles v]
     | Except.error e =>
        [Act.setError (some (errMsg e "Failed to load files. Please try again."))]) ++
    [Act.setLoading LKey.files false]

/-- The `setState` calls performed by one execution of `fetchFolders`,
indexed by the outcome of `await fetchDriveFolders(accessToken)`. -/
def fetchFoldersScript (outcome : Except (Option String) (List DriveFile)) : List Act :=
  [Act.setLoading LKey.folders true, Act.setError none] ++
    (match outcome with
     | Except.ok v => [Act.setFolders v]
     | Except.error e =>
        [Act.setError (some (errMsg e "Failed to load folders. Please try again."))]) ++
    [Act.setLoading LKey.folders false]

/-- Interleaving of two action sequences: both relative orders preserved.
The mount effect starts `fetchFiles()` and `fetchFolders()` without
awaiting, so their `setState` calls interleave in some such order. -/
inductive Merge : List Act → List Act → List Act → Prop where
  | nil : Merge [] [] []
  | left {x : Act} {xs ys zs : List Act} : Merge xs ys zs → Merge (x :: xs) ys (x :: zs)
  | right {y : Act} {xs ys zs : List Act} : Merge xs ys zs → Merge xs (y :: ys) (y :: zs)

/-- The value written to a given state field by the last action of the list
that writes it, where `f` extracts the written value from an action. -/
def lastWrite {β : Type} (f : Act → Option β) : List Act → Option β
  | [] => none
  | a :: rest =>
    match lastWrite f rest with
    | some v => some v
    | none => f a

theorem runActs_proj {β : Type} (f : Act → Option β) (g : TableState → β)
    (hfg : ∀ a s, g (applyAct a s) = (f a).getD (g s)) :
    ∀ (acts : List Act) (s : TableState),
      g (runActs acts s) = (lastWrite f acts).getD (g s) := by
  intro acts
  induction acts with
  | nil => intro s; rfl
  | cons a rest ih =>
      intro s
      have h1 : runActs (a :: rest) s = runActs rest (applyAct a s) := rfl
      rw [h1, ih, hfg]
      cases h : lastWrite f rest with
      | none => simp [lastWrite, h]
      | some v => simp [lastWrite, h]

theorem Merge.swap {xs ys zs : List Act} (h : Merge xs ys zs) : Merge ys xs zs := by
  induction h with
  | nil => exact Merge.nil
  | left _ ih => exact Merge.right ih
  | right _ ih => exact Merge.left ih

/-- If one side of an interleaving never writes the field extracted by `f`,
the last write to that field in the interleaving is the other side's. -/
theorem merge_lastWrite {β : Type} (f : Act → Option β) :
    ∀ {xs ys zs : List Act}, Merge xs ys zs → (∀ a ∈ xs, f a = none) →
      lastWrite f zs = lastWrite f ys := by
  intro xs ys zs hm
  induction hm with
  | nil => intro _; rfl
  | @left x xs' ys' zs' _ ih =>
      intro h
      have hx : f x = none := h x (List.mem_cons_self x xs')
      have hrest : ∀ a ∈ xs', f a = none := fun a ha => h a (List.mem_cons_of_mem x ha)
      have hzs : lastWrite f zs' = lastWrite f ys' := ih hrest
      show (match lastWrite f zs' with
            | some v => some v
            | none => f x) = lastWrite f ys'
      rw [hzs, hx]
      cases lastWrite f ys' <;> rfl
  | @right y xs' ys' zs' _ ih =>
      intro h
      have hzs : lastWrite f zs' = lastWrite f ys' := ih h
      show (match lastWrite f zs' with
            | some v => some v
            | none => f y) =
           (match lastWrite f ys' with
            | some v => some v
            | none => f y)
      rw [hzs]

/-! Per-field write extractors and the corresponding `runActs` laws. -/

def wFiles : Act → Option (List DriveFile)
  | Act.setFiles v => some v
  | _ => none

def wFolders : Act → Option (List DriveFile)
  | Act.setFolders v => some v
  | _ => none

def wError : Act → Option (Option String)
  | Act.setError e => some e
  | _ => none

def wLoadFiles : Act → Option Bool
  | Act.setLoading LKey.files b => some b
  | _ => none

def wLoadFolders : Act → Option Bool
  | Act.setLoading LKey.folders b => some b
  | _ => none

theorem runActs_files (acts : List Act) (s : TableState) :
    (runActs acts s).files = (lastWrite wFiles acts).getD s.files :=
  runActs_proj wFiles (fun st => st.files)
    (by intro a s; cases a with
        | setLoading k b => cases k <;> rfl
        | _ => rfl) acts s

theorem runActs_folders (acts : List Act) (s : TableState) :
    (runActs acts s).folders = (lastWrite wFolders acts).getD s.folders :=
  runActs_proj wFolders (fun st => st.folders)
    (by intro a s; cases a with
        | setLoading k b => cases k <;> rfl
        | _ => rfl) acts s

theorem runActs_error (acts : List Act) (s : TableState) :
    (runActs acts s).error = (lastWrite wError acts).getD s.error :=
  runActs_proj wError (fun st => st.error)
    (by intro a s; cases a with
        | setLoading k b => cases k <;> rfl
        | _ => rfl) acts s

theorem runActs_loadingFiles (acts : List Act) (s : TableState) :
    (runActs acts s).loadingFiles = (lastWrite wLoadFiles acts).getD s.loadingFiles :=
  runActs_proj wLoadFiles (fun st => st.loadingFiles)
    (by intro a s; cases a with
        | setLoading k b => cases k <;> rfl
        | _ => rfl) acts s

theorem runActs_loadingFolders (acts : List Act) (s : TableState) :
    (runActs acts s).loadingFolders = (lastWrite wLoadFolders acts).getD s.loadingFolders :=
  runActs_proj wLoadFolders (fun st => st.loadingFolders)
    (by intro a s; cases a with
        | setLoading k b => cases k <;> rfl
        | _ => rfl) acts s

/-! ## Mutating operations of the drive table -/

/-- A network call issued by the component: one multiplexed `callApi`
request (action, fileId, optional fileName, accessToken) or one call of
`fetchDriveFiles` / `fetchDriveFolders`. -/
inductive ApiCall where
  | rename (fileId fileName accessToken : String)
  | delete (fileId accessToken : String)
  | getUrl (fileId accessToken : String)
  | fetchFilesCall
  | fetchFoldersCall
deriving DecidableEq

/-- `handleApiOperation`: sets the operations loading flag, clears the
error, awaits the operation, and on success awaits `fetchFiles()` once.
`fetchFiles` catches its own errors, so only the operation's failure
reaches the outer catch. Returns the new state together with the number
of `fetchFiles()` invocations issued. -/
def handleApiOperation (op : Except (Option String) Unit)
    (fetchOutcome : Except (Option String) (List DriveFile))
    (s : TableState) : TableState × Nat :=
  let s1 := applyAct (Act.setError none) (applyAct (Act.setLoading LKey.operations true) s)
  match op with
  | Except.ok _ =>
      let s2 := runActs (fetchFilesScript fetchOutcome) s1
      (applyAct (Act.setLoading LKey.operations false) s2, 1)
  | Except.error e =>
      (applyAct (Act.setLoading LKey.operations false)
        (applyAct (Act.setError (some (errMsg e "Operation failed. Please try again."))) s1), 0)

/-- `handleRename`: returns the list of network calls issued.
`if (!fileId) return` is a silent no-op (and `""` is falsy); the prompt
result is `none` when cancelled; `if (!newName?.trim()) return` rejects
empty and whitespace-only names. On success of the rename call,
`handleApiOperation` re-fetches the file list. -/
def handleRename (fileId : Option String) (promptResult : Option String)
    (accessToken : String) (renameOutcome : Except (Option String) Unit) : List ApiCall :=
  match fileId with
  | none => []
  | some fid =>
    if fid = "" then []
    else
      match promptResult with
      | none => []
      | some newName =>
        if jsTrim newName = "" then []
        else
          ApiCall.rename fid newName accessToken ::
            (match renameOutcome with
             | Except.ok _ => [ApiCall.fetchFilesCall]
             | Except.error _ => [])

/-- The `deleteModal` state. -/
structure DeleteModalState where
  isOpen : Bool
  fileId : Option String
  fileName : String
deriving DecidableEq

/-- The `onClose` handler of the modal:
`setDeleteModal({ isOpen: false, fileId: null, fileName: "" })`. -/
def closeDeleteModal (_dm : DeleteModalState) : DeleteModalState :=
  { isOpen := false, fileId := none, fileName := "" }

/-- `confirmDelete`: no-op when `deleteModal.fileId` is falsy; otherwise
awaits `handleApiOperation` (which catches both success and failure) and
then unconditionally resets the modal state. The operation outcome is a
parameter precisely because the resulting modal state ignores it. -/
def confirmDelete (dm : DeleteModalState) (_opOutcome : Except (Option String) Unit) :
    DeleteModalState :=
  match dm.fileId with
  | none => dm
  | some fid =>
    if fid = "" then dm
    else { isOpen := false, fileId := none, fileName := "" }

/-- Response envelope of the multiplexed `callApi` entry point. -/
structure DriveApiResponse where
  success : Bool
  url : Option String
  message : Option String
deriving DecidableEq

/-- Observable effects of one `handleCopyUrl` run: the network calls
issued, the clipboard writes performed, the argument of the
`setCopiedFileId` call when one was made with a file id, and the final
error slot. -/
structure CopyUrlEffect where
  calls : List ApiCall
  clipboardWrites : List String
  copiedSet : Option String
  error : Option String
deriving DecidableEq

/-- `handleCopyUrl`: no-op on falsy `fileId`; otherwise issues one
`getUrl` call; when `res.success && res.url` is truthy it writes the url
to the clipboard and flags the row, otherwise it throws
`res.message || "Failed to get file URL"`, which the catch turns into the
displayed error. -/
def handleCopyUrl (fileId : Option String) (res : DriveApiResponse)
    (accessToken : String) : CopyUrlEffect :=
  match fileId with
  | none => { calls := [], clipboardWrites := [], copiedSet := none, error := none }
  | some fid =>
    if fid = "" then { calls := [], clipboardWrites := [], copiedSet := none, error := none }
    else
      let calls := [ApiCall.getUrl fid accessToken]
      let failure : CopyUrlEffect :=
        { calls := calls, clipboardWrites := [], copiedSet := none,
          error := some (jsOr res.message "Failed to get file URL") }
      if res.success then
        match res.url with
        | some u => if u = "" then failure
                    else { calls := calls, clipboardWrites := [u],
                           copiedSet := some fid, error := none }
        | none => failure
      else failure

/-! ## The copied-flag timer (`setCopiedFileId` / `setTimeout`)

A successful copy at time `t` runs `setCopiedFileId(fileId)` and schedules
`setCopiedFileId(null)` at `t + 2000`. Time is modelled in discrete
milliseconds; `stateAt copies now` replays, tick by tick, the effect of a
list of successful copies `(time, fileId)` on the `copiedFileId` state.
Within one tick, expired timers fire before that tick's copies. -/

/-- Apply, at time `time`, first every timer `c.1 + 2000 = time` (each sets
the state to `none`) and then every copy performed at `time` (later list
entries win, as later `setCopiedFileId` calls overwrite earlier ones). -/
def applyTick (copies : List (Nat × String)) (time : Nat) (st : Option String) :
    Option String :=
  let afterTimers := if copies.any (fun c => c.1 + 2000 = time) then none else st
  copies.foldl (fun acc c => if c.1 = time then some c.2 else acc) afterTimers

/-- The `copiedFileId` state at time `now`, given the successful copies. -/
def stateAt (copies : List (Nat × String)) : Nat → Option String
  | 0 => applyTick copies 0 none
  | n + 1 => applyTick copies (n + 1) (stateAt copies n)

/-! ## Auth guard (`AuthGuard`) -/

/-- What the guard renders. -/
inductive GuardRender where
  | connectPrompt
  | errorView
  | childContent
deriving DecidableEq

/-- `AuthGuard`: empty token is falsy, so it renders the connect prompt
without calling the service; otherwise it awaits one
`getGoogleDriveFiles(accessToken)` validation call and renders the error
view on a throw, the children on success. Returns the rendered view and
the number of validation calls issued. -/
def authGuard (accessToken : String) (validation : Except (Option String) Unit) :
    GuardRender × Nat :=
  if accessToken = "" then (GuardRender.connectPrompt, 0)
  else
    match validation with
    | Except.error _ => (GuardRender.errorView, 1)
    | Except.ok _ => (GuardRender.childContent, 1)

/-! ## Management-record DELETE route (`src/app/api/management/[id]/route.ts`) -/

/-- The literal `"/file/d/"` that the regex `/\/file\/d\/([a-zA-Z0-9_-]+)/`
must match before its capture group. -/
def filePat : List Char := ['/', 'f', 'i', 'l', 'e', '/', 'd', '/']

/-- Character class `[a-zA-Z0-9_-]` of the capture group. -/
def isIdChar (c : Char) : Bool :=
  c.isAlphanum || c = '_' || c = '-'

/-- `photo.match(/\/file\/d\/([a-zA-Z0-9_-]+)/)`: scan left to right for a
position where `"/file/d/"` is followed by at least one class character;
the capture group takes the maximal run of class characters there. -/
def findMatch : List Char → Option (List Char)
  | [] => none
  | l@(_ :: rest) =>
    if filePat.isPrefixOf l then
      let idRun := (l.drop filePat.length).takeWhile isIdChar
      if idRun.isEmpty then findMatch rest else some idRun
    else findMatch rest

/-- The extracted `fileIdMatch[1]` of the route handler, if any. -/
def extractFileId (photo : String) : Option String :=
  (findMatch photo.data).map fun l => { data := l }

/-- JS `String.prototype.replace(pat, "")` with a string pattern: only the
first occurrence is removed. -/
def replaceFirst : List Char → List Char → List Char
  | [], _ => []
  | l@(c :: rest), pat =>
    if pat.isPrefixOf l then l.drop pat.length
    else c :: replaceFirst rest pat

/-- `header.replace("Bearer ", "")`. -/
def stripBearer (header : String) : String :=
  { data := replaceFirst header.data "Bearer ".data }

/-- The management record as the DELETE handler reads it: only the `photo`
field is consulted. -/
structure ManagementRecord where
  photo : Option String
deriving DecidableEq

/-- External calls observable in the DELETE handler's trace. -/
inductive DelEvent where
  | driveDelete (fileId : String)
  | recordDelete (id : String)
deriving DecidableEq

/-- The DELETE handler of `/api/management/[id]`, after
`ManagementService.getManagement` returned `record`: when the photo URL
contains `"drive.google.com/file/d/"` and the regex matches and the
`authorization` header, with `"Bearer "` stripped, is a truthy token, it
issues one Drive `delete` call (whose failure is caught and ignored);
then it deletes the record. The trace lists the calls in order. -/
def deleteHandler (recordId : String) (record : ManagementRecord)
    (authHeader : Option String) : List DelEvent :=
  let accessToken := authHeader.map stripBearer
  let driveEvents :=
    match record.photo with
    | some photo =>
      if jsIncludes photo "drive.google.com/file/d/" then
        match extractFileId photo with
        | some fid =>
          match accessToken with
          | some tok => if tok = "" then [] else [DelEvent.driveDelete fid]
          | none => []
        | none => []
      else []
    | none => []
  driveEvents ++ [DelEvent.recordDelete recordId]

/-! Lemmas about the left-to-right regex scan. -/

/-- A scan prefix is safe when no suffix of it can begin a `filePat` match,
regardless of what follows: no nonempty suffix is a prefix of `filePat`
and `filePat` is a prefix of no suffix. -/
def scanSafe : List Char → Bool
  | [] => true
  | l@(_ :: rest) =>
    (!(l.isPrefixOf filePat) && !(filePat.isPrefixOf l)) && scanSafe rest

theorem findMatch_append_skip (pre tail : List Char) (h : scanSafe pre = true) :
    findMatch (pre ++ tail) = findMatch tail := by
  induction pre with
  | nil => rfl
  | cons c rest ih =>
      have hsafe : scanSafe (c :: rest) = true := h
      rw [scanSafe] at hsafe
      simp only [Bool.and_eq_true, Bool.not_eq_true'] at hsafe
      obtain ⟨⟨h1, h2⟩, h3⟩ := hsafe
      have hno : filePat.isPrefixOf ((c :: rest) ++ tail) = false := by
        by_contra hcon
        have hcon' : filePat.isPrefixOf ((c :: rest) ++ tail) = true := by
          cases hfp : filePat.isPrefixOf ((c :: rest) ++ tail) with
          | true => rfl
          | false => exact absurd hfp hcon
        have hp1 : filePat <+: (c :: rest) ++ tail :=
          List.isPrefixOf_iff_prefix.mp hcon'
        have hp2 : (c :: rest) <+: (c :: rest) ++ tail := List.prefix_append _ _
        rcases List.prefix_or_prefix_of_prefix hp1 hp2 with hp | hp
        · exact absurd ( List.isPrefixOf_iff_prefix.mpr hp) (by simp [h2])
        · exact absurd ( List.isPrefixOf_iff_prefix.mpr hp) (by simp [h1])
      calc findMatch ((c :: rest) ++ tail)
          = findMatch (rest ++ tail) := by
            rw [List.cons_append, findMatch]
            simp [List.cons_append] at hno
            simp [hno]
        _ = findMatch tail := ih h3

theorem findMatch_at_start (idStr tail : List Char) (hne : idStr ≠ [])
    (hid : ∀ c ∈ idStr, isIdChar c = true) (htail : tail.takeWhile isIdChar = []) :
    findMatch (filePat ++ (idStr ++ tail)) = some idStr := by
  have hshape : filePat ++ (idStr ++ tail) =
      '/' :: (['f', 'i', 'l', 'e', '/', 'd', '/'] ++ (idStr ++ tail)) := rfl
  rw [hshape, findMatch]
  have hpref : filePat.isPrefixOf
      ('/' :: (['f', 'i', 'l', 'e', '/', 'd', '/'] ++ (idStr ++ tail))) = true := by
    have : filePat <+: filePat ++ (idStr ++ tail) := List.prefix_append _ _
    exact List.isPrefixOf_iff_prefix.mpr this
  rw [hpref]
  simp only [if_true]
  have hdrop : ('/' :: (['f', 'i', 'l', 'e', '/', 'd', '/'] ++ (idStr ++ tail))).drop
      filePat.length = idStr ++ tail := by
    have : ('/' :: (['f', 'i', 'l', 'e', '/', 'd', '/'] ++ (idStr ++ tail))) =
        filePat ++ (idStr ++ tail) := rfl
    rw [this]
    exact List.drop_left filePat (idStr ++ tail)
  rw [hdrop]
  have htake : (idStr ++ tail).takeWhile isIdChar = idStr := by
    rw [List.takeWhile_append_of_pos hid, htail, List.append_nil]
  rw [htake]
  have hempty : idStr.isEmpty = false := by
    cases idStr with
    | nil => exact absurd rfl hne
    | cons a l => rfl
  rw [hempty]
  rfl

/-! Helper lemmas for the mount interleaving (used by the List-operation
claims). Each says that one fetch script never writes a field owned by
the other fetch. -/

theorem foldersScript_no_wLoadFiles (outG : Except (Option String) (List DriveFile)) :
    ∀ a ∈ fetchFoldersScript outG, wLoadFiles a = none := by
  intro a ha
  cases outG with
  | ok v =>
      simp [fetchFoldersScript] at ha
      rcases ha with rfl | rfl | rfl | rfl <;> rfl
  | error e =>
      simp [fetchFoldersScript] at ha
      rcases ha with rfl | rfl | rfl | rfl <;> rfl

theorem foldersScript_no_wFiles (outG : Except (Option String) (List DriveFile)) :
    ∀ a ∈ fetchFoldersScript outG, wFiles a = none := by
  intro a ha
  cases outG with
  | ok v =>
      simp [fetchFoldersScript] at ha
      rcases ha with rfl | rfl | rfl | rfl <;> rfl
  | error e =>
      simp [fetchFoldersScript] at ha
      rcases ha with rfl | rfl | rfl | rfl <;> rfl

theorem filesScript_no_wLoadFolders (outF : Except (Option String) (List DriveFile)) :
    ∀ a ∈ fetchFilesScript outF, wLoadFolders a = none := by
  intro a ha
  cases outF with
  | ok v =>
      simp [fetchFilesScript] at ha
      rcases ha with rfl | rfl | rfl | rfl <;> rfl
  | error e =>
      simp [fetchFilesScript] at ha
      rcases ha with rfl | rfl | rfl | rfl <;> rfl

theorem filesScript_no_wFolders (outF : Except (Option String) (List DriveFile)) :
    ∀ a ∈ fetchFilesScript outF, wFolders a = none := by
  intro a ha
  cases outF with
  | ok v =>
      simp [fetchFilesScript] at ha
      rcases ha with rfl | rfl | rfl | rfl <;> rfl
  | error e =>
      simp [fetchFilesScript] at ha
      rcases ha with rfl | rfl | rfl | rfl <;> rfl

/-! Helper lemmas for the copied-flag timer. -/

theorem foldl_set_stable (cs : List (Nat × String)) (t : Nat) (id : String)
    (h : ∀ c ∈ cs, c.1 = t → c.2 = id) :
    cs.foldl (fun acc c => if c.1 = t then some c.2 else acc) (some id) = some id := by
  induction cs with
  | nil => rfl
  | cons c cs ih =>
      have hstep : (if c.1 = t then some c.2 else some id) = some id := by
        by_cases hc : c.1 = t
        · rw [if_pos hc, h c (List.mem_cons_self c cs) hc]
        · rw [if_neg hc]
      show cs.foldl _ (if c.1 = t then some c.2 else some id) = some id
      rw [hstep]
      exact ih fun c' hc' => h c' (List.mem_cons_of_mem c hc')

theorem foldl_set_of_mem (copies : List (Nat × String)) (t : Nat) (id : String)
    (hmem : (t, id) ∈ copies) (huniq : ∀ c ∈ copies, c.1 = t → c.2 = id) :
    ∀ init : Option String,
      copies.foldl (fun acc c => if c.1 = t then some c.2 else acc) init = some id := by
  induction copies with
  | nil => exact absurd hmem (List.not_mem_nil _)
  | cons c cs ih =>
      intro init
      rcases List.mem_cons.mp hmem with heq | hmem'
      · subst heq
        show cs.foldl _ (if t = t then some id else init) = some id
        rw [if_pos rfl]
        exact foldl_set_stable cs t id fun c' hc' => huniq c' (List.mem_cons_of_mem _ hc')
      · exact ih hmem' (fun c' hc' => huniq c' (List.mem_cons_of_mem c hc')) _

theorem foldl_set_skip (cs : List (Nat × String)) (time : Nat)
    (h : ∀ c ∈ cs, c.1 ≠ time) :
    ∀ init : Option String,
      cs.foldl (fun acc c => if c.1 = time then some c.2 else acc) init = init := by
  induction cs with
  | nil => intro _; rfl
  | cons c cs ih =>
      intro init
      show cs.foldl _ (if c.1 = time then some c.2 else init) = init
      rw [if_neg (h c (List.mem_cons_self c cs))]
      exact ih (fun c' hc' => h c' (List.mem_cons_of_mem c hc')) init

theorem applyTick_sets (copies : List (Nat × String)) (t : Nat) (id : String)
    (st : Option String) (hmem : (t, id) ∈ copies)
    (huniq : ∀ c ∈ copies, c.1 = t → c.2 = id) :
    applyTick copies t st = some id := by
  unfold applyTick
  exact foldl_set_of_mem copies t id hmem huniq _

theorem applyTick_skip (copies : List (Nat × String)) (time : Nat) (st : Option String)
    (h1 : ∀ c ∈ copies, c.1 ≠ time) (h2 : ∀ c ∈ copies, c.1 + 2000 ≠ time) :
    applyTick copies time st = st := by
  unfold applyTick
  have hany : copies.any (fun c => c.1 + 2000 = time) = false := by
    apply List.any_eq_false.mpr
    intro c hc
    simp [h2 c hc]
  rw [hany]
  simp only [Bool.false_eq_true, if_false]
  exact foldl_set_skip copies time h1 st

theorem applyTick_clears (copies : List (Nat × String)) (time : Nat) (st : Option String)
    (hex : ∃ c ∈ copies, c.1 + 2000 = time) (h1 : ∀ c ∈ copies, c.1 ≠ time) :
    applyTick copies time st = none := by
  unfold applyTick
  have hany : copies.any (fun c => c.1 + 2000 = time) = true := by
    apply List.any_eq_true.mpr
    obtain ⟨c, hc, hct⟩ := hex
    exact ⟨c, hc, by simp [hct]⟩
  rw [hany]
  simp only [if_true]
  exact foldl_set_skip copies time h1 none

/-! Helper lemmas for the DELETE route's string handling. -/

theorem replaceFirst_at_start (c : Char) (l pat : List Char)
    (h : pat.isPrefixOf (c :: l) = true) :
    replaceFirst (c :: l) pat = (c :: l).drop pat.length := by
  rw [replaceFirst]
  simp [h]

theorem stripBearer_bearer (tok : String) : stripBearer ("Bearer " ++ tok) = tok := by
  unfold stripBearer
  have h1 : ("Bearer " ++ tok).data = "Bearer ".data ++ tok.data := String.data_append _ _
  rw [h1]
  have hcons : "Bearer ".data ++ tok.data = 'B' :: ("earer ".data ++ tok.data) := rfl
  have hpre : ("Bearer ".data).isPrefixOf ('B' :: ("earer ".data ++ tok.data)) = true := by
    rw [← hcons]
    exact List.isPrefixOf_iff_prefix.mpr (List.prefix_append _ _)
  rw [hcons, replaceFirst_at_start 'B' _ _ hpre, ← hcons]
  have hlen : ("Bearer ".data).length = 7 := by decide
  have : ("Bearer ".data ++ tok.data).drop ("Bearer ".data).length = tok.data :=
    List.drop_left _ _
  rw [this]

theorem containsSub_append_found (a b pat : List Char) (hpat : pat ≠ []) :
    containsSub (a ++ (pat ++ b)) pat = true := by
  induction a with
  | nil =>
      cases pat with
      | nil => exact absurd rfl hpat
      | cons p ps =>
          have hpre : (p :: ps).isPrefixOf (p :: (ps ++ b)) = true := by
            have : (p :: (ps ++ b)) = (p :: ps) ++ b := rfl
            rw [this]
            exact List.isPrefixOf_iff_prefix.mpr (List.prefix_append _ _)
          show ((p :: ps).isPrefixOf (p :: (ps ++ b)) ||
            containsSub (ps ++ b) (p :: ps)) = true
          rw [hpre]
          exact Bool.true_or _
  | cons x a ih =>
      show (pat.isPrefixOf (x :: (a ++ (pat ++ b))) ||
        containsSub (a ++ (pat ++ b)) pat) = true
      rw [ih]
      exact Bool.or_true _

/-! ## Claim theorems -/

/-- C4: after the delete confirmation is closed — whether by confirming
(and the mutating call succeeded or failed) or by cancelling — the
confirmation state has `isOpen = false` and `fileId = none`. -/
theorem claim_c4_confirmation_always_closes (dm : DeleteModalState)
    (out : Except (Option String) Unit) (fid : String)
    (hfid : dm.fileId = some fid) (hne : fid ≠ "") :
    ((confirmDelete dm out).isOpen = false ∧ (confirmDelete dm out).fileId = none) ∧
    ((closeDeleteModal dm).isOpen = false ∧ (closeDeleteModal dm).fileId = none) := by
  constructor
  · unfold confirmDelete
    rw [hfid]
    simp [hne]
  · exact ⟨rfl, rfl⟩

/-- Witness for C4 at a concretely open modal and a failing delete call. -/
theorem claim_c4_witness :
    ((confirmDelete ⟨true, some "f1", "a.png"⟩ (Except.error none)).isOpen = false ∧
      (confirmDelete ⟨true, some "f1", "a.png"⟩ (Except.error none)).fileId = none) ∧
    ((closeDeleteModal ⟨true, some "f1", "a.png"⟩).isOpen = false ∧
      (closeDeleteModal ⟨true, some "f1", "a.png"⟩).fileId = none) :=
  claim_c4_confirmation_always_closes ⟨true, some "f1", "a.png"⟩ (Except.error none) "f1"
    rfl (by decide)

/-- C6: rename is a silent no-op without a `fileId`; an empty or
whitespace-only prompted name issues no network call; a network call
occurs only when the `fileId` is present and the trimmed name nonempty. -/
theorem claim_c6_rename_validation (promptResult : Option String) (tok : String)
    (out : Except (Option String) Unit) :
    (handleRename none promptResult tok out = []) ∧
    (∀ fid : String,
      (promptResult = none ∨ ∃ n, promptResult = some n ∧ jsTrim n = "") →
      handleRename (some fid) promptResult tok out = []) ∧
    (∀ fileId : Option String, handleRename fileId promptResult tok out ≠ [] →
      ∃ f n, fileId = some f ∧ promptResult = some n ∧ jsTrim n ≠ "") := by
  refine ⟨rfl, ?_, ?_⟩
  · intro fid h
    rcases h with h | ⟨n, hn, ht⟩
    · subst h
      unfold handleRename
      by_cases hf : fid = "" <;> simp [hf]
    · subst hn
      unfold handleRename
      by_cases hf : fid = "" <;> simp [hf, ht]
  · intro fileId hne
    cases fileId with
    | none => exact absurd rfl hne
    | some f =>
      by_cases hf : f = ""
      · exact absurd (by unfold handleRename; simp [hf]) hne
      · cases promptResult with
        | none => exact absurd (by unfold handleRename; simp [hf]) hne
        | some n =>
          by_cases ht : jsTrim n = ""
          · exact absurd (by unfold handleRename; simp [hf, ht]) hne
          · exact ⟨f, n, rfl, rfl, ht⟩

/-- Witness for C6: whitespace-only input issues no network call. -/
theorem claim_c6_witness :
    handleRename (some "f1") (some "   ") "tok" (Except.ok ()) = [] :=
  (claim_c6_rename_validation (some "   ") "tok" (Except.ok ())).2.1 "f1"
    (Or.inr ⟨"   ", rfl, by decide⟩)

/-- C7: on a list in which no entry's mimeType contains `"folder"`,
filter `files` keeps everything and filter `folders` keeps nothing,
while filter `all` always keeps everything. -/
theorem claim_c7_filter_partition (l : List DriveFile)
    (h : ∀ f ∈ l, isFolderMime f.mimeType = false) :
    filteredFiles l DriveFilter.files = l ∧
    filteredFiles l DriveFilter.folders = [] ∧
    (∀ l' : List DriveFile, filteredFiles l' DriveFilter.all = l') := by
  refine ⟨?_, ?_, ?_⟩
  · unfold filteredFiles
    apply List.filter_eq_self.mpr
    intro a ha
    simp [h a ha]
  · unfold filteredFiles
    apply List.filter_eq_nil_iff.mpr
    intro a ha
    simp [h a ha]
  · intro l'
    unfold filteredFiles
    apply List.filter_eq_self.mpr
    intro a _
    simp

/-- Witness for C7 on a two-entry list of plain files. -/
theorem claim_c7_witness :
    filteredFiles [⟨some "1", some "a", some "text/plain"⟩, ⟨some "2", some "b", none⟩]
        DriveFilter.files =
      [⟨some "1", some "a", some "text/plain"⟩, ⟨some "2", some "b", none⟩] ∧
    filteredFiles [⟨some "1", some "a", some "text/plain"⟩, ⟨some "2", some "b", none⟩]
        DriveFilter.folders = [] ∧
    (∀ l' : List DriveFile, filteredFiles l' DriveFilter.all = l') :=
  claim_c7_filter_partition
    [⟨some "1", some "a", some "text/plain"⟩, ⟨some "2", some "b", none⟩] (by decide)

/-- C8: when the `getUrl` response is unsuccessful or carries no URL, the
copy handler surfaces the error message, writes nothing to the clipboard
and never sets the copied flag. -/
theorem claim_c8_copy_failure (fid tok : String) (res : DriveApiResponse)
    (hfid : fid ≠ "")
    (h : res.success = false ∨ res.url = none ∨ res.url = some "") :
    (handleCopyUrl (some fid) res tok).clipboardWrites = [] ∧
    (handleCopyUrl (some fid) res tok).copiedSet = none ∧
    (handleCopyUrl (some fid) res tok).error =
      some (jsOr res.message "Failed to get file URL") := by
  rcases h with h | h | h
  · unfold handleCopyUrl
    simp [hfid, h]
  · unfold handleCopyUrl
    by_cases hs : res.success <;> simp [hfid, h, hs]
  · unfold handleCopyUrl
    by_cases hs : res.success <;> simp [hfid, h, hs]

/-- Witness for C8: an unsuccessful response with a message. -/
theorem claim_c8_witness :
    (handleCopyUrl (some "f1") ⟨false, some "http://u", some "nope"⟩ "tok").clipboardWrites
      = [] ∧
    (handleCopyUrl (some "f1") ⟨false, some "http://u", some "nope"⟩ "tok").copiedSet
      = none ∧
    (handleCopyUrl (some "f1") ⟨false, some "http://u", some "nope"⟩ "tok").error
      = some "nope" := by
  have h := claim_c8_copy_failure "f1" "tok" ⟨false, some "http://u", some "nope"⟩
    (by decide) (Or.inl rfl)
  exact ⟨h.1, h.2.1, h.2.2⟩

/-- C9: with an empty access token the auth guard renders the connect
prompt, issues zero validation calls, and never renders its children. -/
theorem claim_c9_empty_token_guard (validation : Except (Option String) Unit) :
    authGuard "" validation = (GuardRender.connectPrompt, 0) ∧
    (authGuard "" validation).1 ≠ GuardRender.childContent := by
  constructor
  · rfl
  · intro hcon
    have : GuardRender.connectPrompt = GuardRender.childContent := hcon
    exact absurd this (by decide)

/-- C10 (implicit): a file entry with an absent mimeType is classified as
a non-folder: kept by filter `files`, never kept by filter `folders`. -/
theorem claim_c10_missing_mime_nonfolder (f : DriveFile) (l : List DriveFile)
    (hm : f.mimeType = none) :
    isFolderMime f.mimeType = false ∧
    (f ∈ l → f ∈ filteredFiles l DriveFilter.files) ∧
    f ∉ filteredFiles l DriveFilter.folders := by
  refine ⟨by rw [hm]; rfl, ?_, ?_⟩
  · intro hf
    unfold filteredFiles
    apply List.mem_filter.mpr
    refine ⟨hf, ?_⟩
    simp [hm, isFolderMime]
  · intro hcon
    unfold filteredFiles at hcon
    have hp := (List.mem_filter.mp hcon).2
    rw [hm] at hp
    simp [isFolderMime] at hp

/-- Witness for C10 on a singleton list with a missing mimeType. -/
theorem claim_c10_witness :
    isFolderMime (DriveFile.mk (some "1") (some "a") none).mimeType = false ∧
    ((DriveFile.mk (some "1") (some "a") none) ∈ [DriveFile.mk (some "1") (some "a") none] →
      (DriveFile.mk (some "1") (some "a") none) ∈
        filteredFiles [DriveFile.mk (some "1") (some "a") none] DriveFilter.files) ∧
    (DriveFile.mk (some "1") (some "a") none) ∉
      filteredFiles [DriveFile.mk (some "1") (some "a") none] DriveFilter.folders :=
  claim_c10_missing_mime_nonfolder (DriveFile.mk (some "1") (some "a") none)
    [DriveFile.mk (some "1") (some "a") none] rfl

/-- C5 counterexample: the mutating operation succeeds, the single
re-fetch is issued but fails, and the previously displayed snapshot is
NOT replaced — it stays on screen together with the fetch error. This
refutes the unconditional "the previously displayed snapshot is
replaced" part of the claim. -/
theorem claim_c5_counterexample :
    (handleApiOperation (Except.ok ()) (Except.error (some "network down"))
        ⟨[⟨some "old", some "old.txt", none⟩], [], false, false, false, none⟩).2 = 1 ∧
    (handleApiOperation (Except.ok ()) (Except.error (some "network down"))
        ⟨[⟨some "old", some "old.txt", none⟩], [], false, false, false, none⟩).1.files =
      [⟨some "old", some "old.txt", none⟩] ∧
    (handleApiOperation (Except.ok ()) (Except.error (some "network down"))
        ⟨[⟨some "old", some "old.txt", none⟩], [], false, false, false, none⟩).1.error =
      some "network down" := by
  refine ⟨rfl, rfl, rfl⟩

/-- C5 amended: after a successful mutating operation exactly one
re-fetch of the file list is issued (and none after a failed one), and
whenever that re-fetch succeeds its result replaces the displayed
snapshot. -/
theorem claim_c5_single_refetch (op : Except (Option String) Unit)
    (fetchOutcome : Except (Option String) (List DriveFile)) (s : TableState) :
    (op = Except.ok () → (handleApiOperation op fetchOutcome s).2 = 1) ∧
    (∀ e, op = Except.error e → (handleApiOperation op fetchOutcome s).2 = 0) ∧
    (∀ v, op = Except.ok () → fetchOutcome = Except.ok v →
      (handleApiOperation op fetchOutcome s).1.files = v) := by
  refine ⟨?_, ?_, ?_⟩
  · intro h; subst h; rfl
  · intro e h; subst h; rfl
  · intro v h1 h2
    subst h1
    subst h2
    rfl

/-- Witness for C5 at a successful rename followed by a successful
re-fetch that delivers a one-element list. -/
theorem claim_c5_witness :
    (handleApiOperation (Except.ok ()) (Except.ok [⟨some "new", some "new.txt", none⟩])
        ⟨[⟨some "old", some "old.txt", none⟩], [], false, false, false, none⟩).2 = 1 ∧
    (handleApiOperation (Except.ok ()) (Except.ok [⟨some "new", some "new.txt", none⟩])
        ⟨[⟨some "old", some "old.txt", none⟩], [], false, false, false, none⟩).1.files =
      [⟨some "new", some "new.txt", none⟩] :=
  ⟨(claim_c5_single_refetch (Except.ok ()) (Except.ok [⟨some "new", some "new.txt", none⟩])
      ⟨[⟨some "old", some "old.txt", none⟩], [], false, false, false, none⟩).1 rfl,
   (claim_c5_single_refetch (Except.ok ()) (Except.ok [⟨some "new", some "new.txt", none⟩])
      ⟨[⟨some "old", some "old.txt", none⟩], [], false, false, false, none⟩).2.2
     [⟨some "new", some "new.txt", none⟩] rfl rfl⟩

/-- The `setState` schedule the mount effect actually produces when both
fetches fail: both synchronous prefixes run first (`fetchFiles()` then
`fetchFolders()` are started without awaiting), then each fetch resumes
with its failure continuation. -/
def mountBothFailSchedule : List Act :=
  [Act.setLoading LKey.files true, Act.setError none,
   Act.setLoading LKey.folders true, Act.setError none,
   Act.setError (some "E1"), Act.setLoading LKey.files false,
   Act.setError (some "E2"), Act.setLoading LKey.folders false]

/-- C2 counterexample: the two mount fetches report into one shared error
slot. In the real schedule where `fetchDriveFiles` fails with `"E1"` and
`fetchDriveFolders` fails with `"E2"`, the surfaced error is `"E2"`:
the files fetch's own error, which it surfaces as `"E1"` when it runs
alone, is overwritten by the folders fetch's execution. This refutes
"the error reported by one fetch is not affected by the other fetch's
execution". -/
theorem claim_c2_counterexample :
    Merge (fetchFilesScript (Except.error (some "E1")))
      (fetchFoldersScript (Except.error (some "E2"))) mountBothFailSchedule ∧
    (runActs mountBothFailSchedule ⟨[], [], false, false, false, none⟩).error = some "E2" ∧
    (runActs (fetchFilesScript (Except.error (some "E1")))
      ⟨[], [], false, false, false, none⟩).error = some "E1" := by
  refine ⟨?_, rfl, rfl⟩
  exact Merge.left (Merge.left (Merge.right (Merge.right
    (Merge.left (Merge.left (Merge.right (Merge.right Merge.nil)))))))

/-- C2 amended: in every interleaving of the two mount fetches, each
fetch's loading flag ends false and is untouched by the other fetch, and
a failure of one fetch never blocks the other — a successful fetch's
result is always stored. The two fetches however share the single error
slot: the surfaced error is simply the last `setError` of the
interleaved schedule, so one fetch's report can overwrite the other's. -/
theorem claim_c2_fetch_independence (outF outG : Except (Option String) (List DriveFile))
    (zs : List Act)
    (hm : Merge (fetchFilesScript outF) (fetchFoldersScript outG) zs)
    (s : TableState) :
    (runActs zs s).loadingFiles = false ∧
    (runActs zs s).loadingFolders = false ∧
    (∀ v, outF = Except.ok v → (runActs zs s).files = v) ∧
    (∀ v, outG = Except.ok v → (runActs zs s).folders = v) ∧
    (runActs zs s).error = (lastWrite wError zs).getD s.error := by
  refine ⟨?_, ?_, ?_, ?_, ?_⟩
  · rw [runActs_loadingFiles,
      merge_lastWrite wLoadFiles hm.swap (foldersScript_no_wLoadFiles outG)]
    cases outF <;> rfl
  · rw [runActs_loadingFolders,
      merge_lastWrite wLoadFolders hm (filesScript_no_wLoadFolders outF)]
    cases outG <;> rfl
  · intro v hv
    subst hv
    rw [runActs_files,
      merge_lastWrite wFiles hm.swap (foldersScript_no_wFiles outG)]
    rfl
  · intro v hv
    subst hv
    rw [runActs_folders,
      merge_lastWrite wFolders hm (filesScript_no_wFolders outF)]
    rfl
  · exact runActs_error zs s

/-- Witness for C2: a sequential interleaving where the files fetch fails
with `"E1"` yet the folders fetch still stores its result. -/
theorem claim_c2_witness :
    (runActs
      (fetchFilesScript (Except.error (some "E1")) ++
        fetchFoldersScript (Except.ok [⟨some "g", some "g", some "folder"⟩]))
      ⟨[], [], false, false, false, none⟩).loadingFiles = false ∧
    (runActs
      (fetchFilesScript (Except.error (some "E1")) ++
        fetchFoldersScript (Except.ok [⟨some "g", some "g", some "folder"⟩]))
      ⟨[], [], false, false, false, none⟩).folders =
      [⟨some "g", some "g", some "folder"⟩] := by
  have hmerge : Merge (fetchFilesScript (Except.error (some "E1")))
      (fetchFoldersScript (Except.ok [⟨some "g", some "g", some "folder"⟩]))
      (fetchFilesScript (Except.error (some "E1")) ++
        fetchFoldersScript (Except.ok [⟨some "g", some "g", some "folder"⟩])) :=
    Merge.left (Merge.left (Merge.left (Merge.left
      (Merge.right (Merge.right (Merge.right (Merge.right Merge.nil)))))))
  have h := claim_c2_fetch_independence (Except.error (some "E1"))
    (Except.ok [⟨some "g", some "g", some "folder"⟩]) _ hmerge
    ⟨[], [], false, false, false, none⟩
  exact ⟨h.1, h.2.2.2.1 [⟨some "g", some "g", some "folder"⟩] rfl⟩

set_option maxRecDepth 100000 in
/-- C3 counterexample: row "A" is copied successfully at t=0 and row "B"
at t=1000. At t=1500 — inside A's 2000ms window — the flag already
belongs to "B", not "A", so A's display did not last 2000ms; and at
t=2000 A's stale timer clears B's flag after only 1000ms. This refutes
"flagged for exactly 2000ms ... regardless of any further user
interaction during that window". -/
theorem claim_c3_counterexample :
    stateAt [(0, "A"), (1000, "B")] 1500 = some "B" ∧
    stateAt [(0, "A"), (1000, "B")] 1500 ≠ some "A" ∧
    stateAt [(0, "A"), (1000, "B")] 2000 = none := by
  refine ⟨by decide, by decide, by decide⟩

/-- C3 amended: a successful CopyUrl at time `t` flags the row for
exactly 2000ms and then reverts, provided no other successful CopyUrl
completes within 2000ms on either side of `t`; a further successful copy
inside the window instead re-targets the flag and can clear it early. -/
theorem claim_c3_copied_window (copies : List (Nat × String)) (t : Nat) (id : String)
    (hmem : (t, id) ∈ copies)
    (hiso : ∀ c ∈ copies, c ≠ (t, id) → c.1 + 2000 < t ∨ t + 2000 < c.1) :
    (∀ d, d < 2000 → stateAt copies (t + d) = some id) ∧
    stateAt copies (t + 2000) = none := by
  have huniq : ∀ c ∈ copies, c.1 = t → c.2 = id := by
    intro c hc hct
    by_cases hcq : c = (t, id)
    · rw [hcq]
    · rcases hiso c hc hcq with h | h <;> omega
  have key : ∀ d, d < 2000 → stateAt copies (t + d) = some id := by
    intro d
    induction d with
    | zero =>
        intro _
        rw [Nat.add_zero]
        cases t with
        | zero => exact applyTick_sets copies 0 id none hmem huniq
        | succ k =>
            show applyTick copies (k + 1) (stateAt copies k) = some id
            exact applyTick_sets copies (k + 1) id _ hmem huniq
    | succ d ih =>
        intro hd
        show applyTick copies (t + d + 1) (stateAt copies (t + d)) = some id
        rw [applyTick_skip copies (t + d + 1) _ ?h1 ?h2]
        · exact ih (by omega)
        case h1 =>
          intro c hc
          by_cases hcq : c = (t, id)
          · rw [hcq]; simp; omega
          · rcases hiso c hc hcq with h | h <;> omega
        case h2 =>
          intro c hc
          by_cases hcq : c = (t, id)
          · rw [hcq]; simp; omega
          · rcases hiso c hc hcq with h | h <;> omega
  refine ⟨key, ?_⟩
  show applyTick copies (t + 1999 + 1) (stateAt copies (t + 1999)) = none
  apply applyTick_clears
  · exact ⟨(t, id), hmem, by omega⟩
  · intro c hc
    by_cases hcq : c = (t, id)
    · rw [hcq]; simp; omega
    · rcases hiso c hc hcq with h | h <;> omega

/-- Witness for C3: an isolated successful copy of row "A" at t=5. -/
theorem claim_c3_witness :
    stateAt [(5, "A")] (5 + 100) = some "A" ∧ stateAt [(5, "A")] (5 + 2000) = none :=
  ⟨(claim_c3_copied_window [(5, "A")] 5 "A" (by decide) (by decide)).1 100 (by decide),
   (claim_c3_copied_window [(5, "A")] 5 "A" (by decide) (by decide)).2⟩

set_option maxRecDepth 100000 in
/-- C1 counterexample: a DELETE request carrying no authorization header,
on a record whose photo is exactly of the Google Drive file-URL form: no
Remote File Service delete call is issued at all — only the record
delete. This refutes the unconditional "issues exactly one Remote File
Service delete call". -/
theorem claim_c1_counterexample :
    deleteHandler "rec1" ⟨some "https://drive.google.com/file/d/ABC123/view"⟩ none
      = [DelEvent.recordDelete "rec1"] := by decide

/-- C1 amended: when the request carries an authorization header whose
bearer token is non-empty and the stored photo is
`"https://drive.google.com/file/d/<ID>/view"` with `<ID>` a nonempty
string over `[a-zA-Z0-9_-]`, the handler issues exactly one Remote File
Service delete call with the extracted `<ID>`, before the record-delete
call. -/
theorem claim_c1_photo_delete (recordId tok id : String)
    (htok : tok ≠ "")
    (hidne : id ≠ "")
    (hid : ∀ c ∈ id.data, isIdChar c = true) :
    deleteHandler recordId
      ⟨some ("https://drive.google.com/file/d/" ++ id ++ "/view")⟩
      (some ("Bearer " ++ tok)) =
    [DelEvent.driveDelete id, DelEvent.recordDelete recordId] := by
  have hidl : id.data ≠ [] := fun hconl => hidne (String.ext hconl)
  have hsplit1 : ("https://drive.google.com/file/d/" ++ id ++ "/view").data
      = "https://".data ++ ("drive.google.com/file/d/".data ++ (id.data ++ "/view".data)) := by
    rw [String.data_append, String.data_append]
    have hd : ("https://drive.google.com/file/d/").data
        = "https://".data ++ "drive.google.com/file/d/".data := by decide
    rw [hd, List.append_assoc, List.append_assoc]
  have hinc : jsIncludes ("https://drive.google.com/file/d/" ++ id ++ "/view")
      "drive.google.com/file/d/" = true := by
    unfold jsIncludes
    rw [hsplit1]
    exact containsSub_append_found _ _ _ (by decide)
  have hsplit2 : ("https://drive.google.com/file/d/" ++ id ++ "/view").data
      = "https://drive.google.com".data ++ (filePat ++ (id.data ++ "/view".data)) := by
    rw [String.data_append, String.data_append]
    have hd : ("https://drive.google.com/file/d/").data
        = "https://drive.google.com".data ++ filePat := by decide
    rw [hd, List.append_assoc, List.append_assoc]
  have hfind : findMatch ("https://drive.google.com/file/d/" ++ id ++ "/view").data
      = some id.data := by
    rw [hsplit2, findMatch_append_skip _ _ (by decide)]
    exact findMatch_at_start id.data "/view".data hidl hid (by decide)
  have hextract : extractFileId ("https://drive.google.com/file/d/" ++ id ++ "/view")
      = some id := by
    unfold extractFileId
    rw [hfind]
    rfl
  have hstrip : stripBearer ("Bearer " ++ tok) = tok := stripBearer_bearer tok
  unfold deleteHandler
  simp only [Option.map_some', hstrip, hinc, hextract, if_true]
  rw [if_neg htok]
  rfl

/-- Witness for C1 at a concrete token and file id. -/
theorem claim_c1_witness :
    deleteHandler "rec1"
      ⟨some ("https://drive.google.com/file/d/" ++ "ABC123" ++ "/view")⟩
      (some ("Bearer " ++ "tok")) =
    [DelEvent.driveDelete "ABC123", DelEvent.recordDelete "rec1"] :=
  claim_c1_photo_delete "rec1" "tok" "ABC123" (by decide) (by decide) (by decide)
